import Mathlib

/-!
# Verification of the ClaraGenomicsAnalysis core (cudapoa batch factory, batch
# state machine, cudamapper matcher)

Shallow embedding of the two visible source files
(`cudapoa/src/batch.cpp`, `cudamapper/.../matcher_two_indices.hpp`) together
with models, taken from the specification, of the parts of the repository that
the visible sources call but do not contain (`use32bitInt`, the
`CudapoaBatch<ScoreT>` constructor, the batch state machine, and the matcher
implementation behind `MatcherTwoIndices::create_matcher`).

Machine integers are modelled as `Int`/`Nat`; the 16-bit score accumulator's
positive range limit is the explicit constant 32767.
-/

/-! ## Data model: batch factory (cudapoa) -/

/-- Size bounds handed to `create_batch`.  Modelled from the spec: the
`BatchSize` struct itself is outside the given sources; the spec describes it
as "size bounds (max sequences per problem, max sequence length)". -/
structure BatchSize where
  max_sequences_per_problem : Nat
  max_sequence_length : Nat
  deriving DecidableEq, Repr

/-- The two concrete score-accumulator variants of `CudapoaBatch<ScoreT>`:
`narrow16` stands for `CudapoaBatch<int16_t>`, `wide32` for
`CudapoaBatch<int32_t>`. -/
inductive ScoreType where
  | narrow16
  | wide32
  deriving DecidableEq, Repr

/-- Largest positive value representable by the narrow (16-bit) signed score
accumulator (`int16_t`): the narrow range limit. -/
def int16Limit : Int := 32767

/-- Largest of the absolute values of the three scoring parameters. -/
def maxAbsScore (gap_score mismatch_score match_score : Int) : Int :=
  max |gap_score| (max |mismatch_score| |match_score|)

/-- Modelled from the spec: the body of `use32bitInt` is outside the given
sources (batch.cpp only calls it).  The spec: "compute whether the maximum
sequence length times the maximum absolute score magnitude could exceed the
representable range of a narrow (16-bit) signed score accumulator; if so,
select a wide (32-bit) accumulator, else select narrow", with the boundary
case "exactly at the range limit must select wide". -/
def use32bitInt (batch_size : BatchSize) (gap_score mismatch_score match_score : Int) : Bool :=
  decide (int16Limit ≤
    (batch_size.max_sequence_length : Int) * maxAbsScore gap_score mismatch_score match_score)

/-- Number of bytes per score cell at a given precision (`sizeof(int16_t)` /
`sizeof(int32_t)`); the spec: "narrow mode roughly halves per-cell memory". -/
def scoreBytes : ScoreType → Nat
  | .narrow16 => 2
  | .wide32 => 4

/-- Modelled from the spec: device memory needed to hold one minimal-size
problem at the given precision — a full score matrix of the configured
maximum dimensions, at `scoreBytes` per cell.  The real check lives in the
`CudapoaBatch<ScoreT>` constructor, which is outside the given sources. -/
def minimalProblemBytes (batch_size : BatchSize) (st : ScoreType) : Nat :=
  batch_size.max_sequence_length * batch_size.max_sequence_length * scoreBytes st

/-- Error taxonomy of the spec (§7). -/
inductive CudapoaError where
  | configuration_error
  | capacity_error
  | allocation_error
  | input_error
  deriving DecidableEq, Repr

/-- A constructed `CudapoaBatch` object: the score-type tag together with the
construction parameters it was configured with. -/
structure Batch where
  score_type : ScoreType
  device_id : Int
  stream : Nat
  max_mem : Nat
  output_mask : Nat
  batch_size : BatchSize
  gap_score : Int
  mismatch_score : Int
  match_score : Int
  banded : Bool
  deriving DecidableEq, Repr

/-- Modelled from the spec: the `CudapoaBatch<ScoreT>` constructor (outside the
given sources).  Precondition of the spec: "`max_memory` must be sufficient to
hold at least one minimal-size problem at the resulting precision; otherwise
fails with a ConfigurationError", discovered before any device work is
enqueued. -/
def cudapoaBatchCtor (st : ScoreType) (device_id : Int) (stream : Nat) (max_mem : Nat)
    (output_mask : Nat) (batch_size : BatchSize)
    (gap_score mismatch_score match_score : Int) (banded : Bool) :
    Except CudapoaError Batch :=
  if max_mem < minimalProblemBytes batch_size st then
    .error .configuration_error
  else
    .ok ⟨st, device_id, stream, max_mem, output_mask, batch_size,
         gap_score, mismatch_score, match_score, banded⟩

/-- Embedding of `create_batch` (cudapoa/src/batch.cpp, lines 22-59): computes
the decision flag `use_32_bit_for_ScoreT` from the size bounds and the three
scores, then constructs the concrete `CudapoaBatch` with the corresponding
score type. -/
def create_batch (device_id : Int) (stream : Nat) (max_mem : Nat) (output_mask : Nat)
    (batch_size : BatchSize) (gap_score mismatch_score match_score : Int)
    (cuda_banded_alignment : Bool) : Except CudapoaError Batch :=
  let use_32_bit_for_ScoreT := use32bitInt batch_size gap_score mismatch_score match_score
  if use_32_bit_for_ScoreT then
    cudapoaBatchCtor .wide32 device_id stream max_mem output_mask batch_size
      gap_score mismatch_score match_score cuda_banded_alignment
  else
    cudapoaBatchCtor .narrow16 device_id stream max_mem output_mask batch_size
      gap_score mismatch_score match_score cuda_banded_alignment

/-- The score type `create_batch` selects, as a standalone pure function of
the size bounds and the scoring parameters only. -/
def selectedScoreType (batch_size : BatchSize)
    (gap_score mismatch_score match_score : Int) : ScoreType :=
  if use32bitInt batch_size gap_score mismatch_score match_score then .wide32 else .narrow16

/-! ## Data model: alignment problems, POA graphs, and the batch state machine

The `CudapoaBatch<ScoreT>` engine itself (cudapoa_batch.hpp and the kernels)
is outside the given sources; everything below is modelled from the spec
(§3 "Alignment Problem"/"Alignment Batch", §4.3 "Alignment Batch (core
engine)").  Bases are numbers `0..3` (the configured alphabet); a sequence is
a list of bases. -/

/-- A sequence of bases. -/
abbrev ReadSeq := List Nat

/-- Modelled from the spec: one partial-order-alignment instance — the input
set of sequences to be aligned into a single consensus graph. -/
structure Problem where
  sequences : List ReadSeq
  deriving DecidableEq, Repr

/-- Output selector bit for consensus output (bit 0 of the bitmask). -/
def requestsConsensus (output_mask : Nat) : Bool := output_mask.testBit 0

/-- Output selector bit for MSA output (bit 1 of the bitmask). -/
def requestsMsa (output_mask : Nat) : Bool := output_mask.testBit 1

/-- Modelled from the spec (§9): the POA graph is "an arena of nodes addressed
by stable integer indices plus adjacency lists of indices".  `adj i` lists the
outgoing edges of node `i` as (target node, edge weight) pairs; every edge
goes from a lower to a higher node index (nodes are created in topological
order).  `aligns` records, per threaded sequence in insertion order, the graph
nodes that sequence aligns to (its path through the graph), used to derive the
MSA rows. -/
structure PoaGraph where
  numNodes : Nat
  base : Nat → Nat
  nodeWeight : Nat → Nat
  adj : Nat → List (Nat × Nat)
  aligns : List (List Nat)

/-- The graph before any sequence has been threaded in. -/
def emptyPoaGraph : PoaGraph :=
  ⟨0, fun _ => 0, fun _ => 0, fun _ => [], []⟩

/-- Threading the first sequence initializes the graph as a linear chain:
one node per base, unit node weights, unit-weight edges `i → i+1`, and the
sequence aligned to every node of the chain. -/
def chainGraph (s : ReadSeq) : PoaGraph where
  numNodes := s.length
  base := fun i => s.getD i 0
  nodeWeight := fun _ => 1
  adj := fun i => if i + 1 < s.length then [(i + 1, 1)] else []
  aligns := [List.range s.length]

/-- Picks the heaviest candidate (weight, path) from a list, preferring the
earliest on ties. -/
def pickMax : List (Nat × List Nat) → Option (Nat × List Nat)
  | [] => none
  | x :: xs =>
    match pickMax xs with
    | none => some x
    | some y => some (if y.1 > x.1 then y else x)

/-- Weight and node list of the heaviest path of the graph starting at node
`i`, found by following outgoing edges; `fuel` bounds the recursion depth (the
graph is a DAG with edges increasing the node index, so `numNodes` fuel always
suffices).  The weight of a path is the sum of its node weights and edge
weights. -/
def bestFrom (g : PoaGraph) : Nat → Nat → Nat × List Nat
  | 0, i => (g.nodeWeight i, [i])
  | fuel + 1, i =>
    let cands := (g.adj i).map (fun e =>
      let r := bestFrom g fuel e.1
      (e.2 + r.1, r.2))
    match pickMax cands with
    | none => (g.nodeWeight i, [i])
    | some (w, p) => (g.nodeWeight i + w, i :: p)

/-- Modelled from the spec: "the consensus is derived by finding the
highest-weight path through the final graph".  Considers the heaviest path
from every start node and keeps the overall heaviest (node weights are
positive, so the winner starts at a source). -/
def consensusPath (g : PoaGraph) : List Nat :=
  let starts := (List.range g.numNodes).map (fun i => bestFrom g g.numNodes i)
  match pickMax starts with
  | none => []
  | some (_, p) => p

/-- Modelled from the spec: threading a further sequence into a non-empty
running graph ("each new sequence is threaded into a running directed acyclic
graph by best-scoring alignment").  Simplified model: the sequence is aligned
positionally against the current consensus path; nodes whose base matches get
their weight bumped and become the sequence's alignment. -/
def generalThread (g : PoaGraph) (s : ReadSeq) : PoaGraph :=
  let path := consensusPath g
  let matched := ((path.zip s).filter (fun x => g.base x.1 == x.2)).map Prod.fst
  { g with
    nodeWeight := fun j => if j ∈ matched then g.nodeWeight j + 1 else g.nodeWeight j
    aligns := g.aligns ++ [matched] }

/-- Threads one sequence into the running graph. -/
def threadSequence (g : PoaGraph) (s : ReadSeq) : PoaGraph :=
  if g.numNodes = 0 then chainGraph s else generalThread g s

/-- Builds the POA graph of a problem by threading its sequences in order. -/
def buildGraph (sequences : List ReadSeq) : PoaGraph :=
  sequences.foldl threadSequence emptyPoaGraph

/-- One MSA row: for every node of the consensus path, the base the sequence
aligns there, or `none` (a gap) when the sequence does not align to that
node. -/
def msaRow (g : PoaGraph) (path : List Nat) (al : List Nat) : List (Option Nat) :=
  path.map (fun j => if j ∈ al then some (g.base j) else none)

/-- Number of gaps in an MSA row. -/
def gapCount (row : List (Option Nat)) : Nat := row.count none

/-- Per-problem output: the requested subset of consensus and MSA rows. -/
structure ProblemResult where
  consensus : Option ReadSeq
  msa : Option (List (List (Option Nat)))
  deriving DecidableEq, Repr

/-- Modelled from the spec: executing one accumulated problem — build its POA
graph, derive the consensus as the highest-weight path, and derive the MSA
rows by reading each threaded sequence's alignment off the consensus path;
only the outputs requested by the output selector are produced. -/
def solveProblem (output_mask : Nat) (p : Problem) : ProblemResult :=
  let g := buildGraph p.sequences
  let path := consensusPath g
  { consensus := if requestsConsensus output_mask then some (path.map g.base) else none
    msa := if requestsMsa output_mask then some (g.aligns.map (msaRow g path)) else none }

/-- Construction-time configuration a batch keeps for its whole lifetime. -/
structure BatchCfg where
  score_type : ScoreType
  budget : Nat
  batch_size : BatchSize
  output_mask : Nat
  gap_score : Int
  mismatch_score : Int
  match_score : Int
  banded : Bool
  deriving DecidableEq, Repr

/-- The configuration a constructed `Batch` object carries into its lifecycle
(`max_mem` becomes the device-memory budget). -/
def Batch.cfg (b : Batch) : BatchCfg :=
  ⟨b.score_type, b.max_mem, b.batch_size, b.output_mask,
   b.gap_score, b.mismatch_score, b.match_score, b.banded⟩

/-- Lifecycle phases of the spec's state machine
`Empty → Accumulating → Executed → (Reset → Empty | Destroyed)`. -/
inductive Phase where
  | empty
  | accumulating
  | executed
  deriving DecidableEq, Repr

/-- Modelled from the spec: the full mutable state of an Alignment Batch —
its immutable configuration, the problems accumulated so far in insertion
order, the results of the last execution, and the lifecycle phase. -/
structure BatchState where
  config : BatchCfg
  problems : List Problem
  results : List ProblemResult
  phase : Phase
  deriving DecidableEq, Repr

/-- The state of a freshly constructed batch: no problems, `Empty` phase. -/
def initBatchState (b : Batch) : BatchState :=
  ⟨b.cfg, [], [], .empty⟩

/-- Modelled from the spec: device-arena bytes needed to store one problem's
graph-construction inputs — the per-cell score size at the batch's precision
times the total number of input bases. -/
def problemBytes (st : ScoreType) (p : Problem) : Nat :=
  scoreBytes st * (p.sequences.map List.length).sum

/-- Device memory the accumulated problems of a state occupy. -/
def memUse (s : BatchState) : Nat :=
  (s.problems.map (problemBytes s.config.score_type)).sum

/-- Malformed input: no sequences, an empty sequence, or a symbol outside the
configured alphabet `0..3` (spec §4.3 failure semantics: rejected at
`add_problem` time). -/
def problemMalformed (p : Problem) : Bool :=
  p.sequences.isEmpty ||
    p.sequences.any (fun s => s.isEmpty || s.any (fun c => 4 ≤ c))

/-- Problem exceeds the per-problem size bounds: too many sequences, or a
sequence longer than the configured maximum. -/
def problemTooLarge (batch_size : BatchSize) (p : Problem) : Bool :=
  batch_size.max_sequences_per_problem < p.sequences.length ||
    p.sequences.any (fun s => batch_size.max_sequence_length < s.length)

/-- Status codes `add_problem` can return (spec: success, or a capacity
signal "problem too large" vs "batch full", or an input error, or an
invalid-state error when called after execution without a reset). -/
inductive AddStatus where
  | success
  | input_malformed
  | problem_too_large
  | batch_full
  | invalid_state
  deriving DecidableEq, Repr

/-- Modelled from the spec: `add_problem` — valid only in `Empty` or
`Accumulating`; validates the problem's shape and the remaining memory
budget; on success appends the problem and moves to `Accumulating`; on any
failure returns the status without mutating the state. -/
def add_problem (s : BatchState) (p : Problem) : AddStatus × BatchState :=
  match s.phase with
  | .executed => (.invalid_state, s)
  | _ =>
    if problemMalformed p then (.input_malformed, s)
    else if problemTooLarge s.config.batch_size p then (.problem_too_large, s)
    else if s.config.budget < memUse s + problemBytes s.config.score_type p then
      (.batch_full, s)
    else
      (.success, { s with problems := s.problems ++ [p], phase := .accumulating })

/-- Status codes for `execute`. -/
inductive ExecStatus where
  | success
  | invalid_state
  deriving DecidableEq, Repr

/-- Modelled from the spec: `execute` — valid only in `Accumulating`
(documented error when `Empty`); runs every accumulated problem and stores
one result per problem, in insertion order; moves to `Executed`. -/
def executeBatch (s : BatchState) : ExecStatus × BatchState :=
  match s.phase with
  | .accumulating =>
    (.success,
     { s with results := s.problems.map (solveProblem s.config.output_mask)
              phase := .executed })
  | _ => (.invalid_state, s)

/-- Modelled from the spec: `get_results` — valid only in `Executed` state;
returns the per-problem results in insertion order. -/
def get_results (s : BatchState) : Option (List ProblemResult) :=
  match s.phase with
  | .executed => some s.results
  | _ => none

/-- Modelled from the spec: `reset` — valid only in `Executed` state;
releases all problem-specific memory and returns to `Empty`, keeping the
configuration (precision and budget) for reuse. -/
def resetBatch (s : BatchState) : BatchState :=
  match s.phase with
  | .executed => ⟨s.config, [], [], .empty⟩
  | _ => s

/-- The batch operations a caller can perform after construction. -/
inductive BatchOp where
  | add (p : Problem)
  | execute
  | getResults
  | reset
  deriving DecidableEq, Repr

/-- State reached by performing one operation (`getResults` is a query and
leaves the state unchanged). -/
def stepBatch (s : BatchState) : BatchOp → BatchState
  | .add p => (add_problem s p).2
  | .execute => (executeBatch s).2
  | .getResults => s
  | .reset => resetBatch s

/-- State reached by performing a sequence of operations in order. -/
def runBatch (s : BatchState) : List BatchOp → BatchState
  | [] => s
  | op :: ops => runBatch (stepBatch s op) ops

/-! ## Data model: anchor generation (cudamapper)

`matcher_two_indices.hpp` declares only the abstract `MatcherTwoIndices`
interface (`anchors()` and the factory `create_matcher(query_index,
target_index)`); the concrete matcher is outside the given sources, so the
generation algorithm is modelled from the spec (§4.1): anchors cover every
pair of matching seed fingerprints between query and target, with identity
self-matches excluded when query and target are the same index. -/

/-- One seed occurrence of a Sequence Index: the read it belongs to, its
position in that read, and its fingerprint (minimizer representation). -/
structure SeedOccurrence where
  read_id : Nat
  pos : Nat
  fp : Nat
  deriving DecidableEq, Repr

/-- Modelled from the spec: an immutable Sequence Index — an identity (so
that "query and target are the same index" is expressible) and its seed
occurrences. -/
structure IndexTwoIndices where
  index_id : Nat
  seeds : List SeedOccurrence
  deriving DecidableEq, Repr

/-- An Anchor: a pair of matching seed positions (query read and position,
target read and position). -/
structure Anchor where
  query_read_id : Nat
  query_pos : Nat
  target_read_id : Nat
  target_pos : Nat
  deriving DecidableEq, Repr

/-- The anchor a matching pair of seed occurrences produces. -/
def mkAnchor (q t : SeedOccurrence) : Anchor :=
  ⟨q.read_id, q.pos, t.read_id, t.pos⟩

/-- Whether a (query seed, target seed) pair produces an anchor: the
fingerprints must be equal, and when query and target are the same index the
identity self-match (same read, same position) is excluded. -/
def anchorablePair (same_index : Bool) (q t : SeedOccurrence) : Bool :=
  q.fp == t.fp && !(same_index && q.read_id == t.read_id && q.pos == t.pos)

/-- Modelled from the spec: the matcher behind
`MatcherTwoIndices::create_matcher` — for every query seed, in order, pair it
with every target seed whose fingerprint matches (identity self-matches
excluded when the two indices are the same), producing the append-only anchor
collection grouped by query position. -/
def generateAnchors (query_index target_index : IndexTwoIndices) : List Anchor :=
  query_index.seeds.flatMap (fun q =>
    ((target_index.seeds.filter
        (anchorablePair (query_index.index_id == target_index.index_id) q)).map
      (mkAnchor q)))

/-! ## Helper lemmas -/

/-- The maximum-sequence-length times maximum-absolute-score product the
precision decision is taken over. -/
def scoreRangeProduct (batch_size : BatchSize)
    (gap_score mismatch_score match_score : Int) : Int :=
  (batch_size.max_sequence_length : Int) *
    maxAbsScore gap_score mismatch_score match_score

lemma create_batch_eq (device_id : Int) (stream max_mem output_mask : Nat)
    (batch_size : BatchSize) (gap_score mismatch_score match_score : Int) (banded : Bool) :
    create_batch device_id stream max_mem output_mask batch_size
        gap_score mismatch_score match_score banded =
      if max_mem < minimalProblemBytes batch_size
          (selectedScoreType batch_size gap_score mismatch_score match_score) then
        Except.error CudapoaError.configuration_error
      else
        Except.ok ⟨selectedScoreType batch_size gap_score mismatch_score match_score,
          device_id, stream, max_mem, output_mask, batch_size,
          gap_score, mismatch_score, match_score, banded⟩ := by
  unfold create_batch cudapoaBatchCtor selectedScoreType
  by_cases h : use32bitInt batch_size gap_score mismatch_score match_score <;> simp [h]

/-! ## Claim theorems -/

/-- C1: `create_batch` selects the narrow (16-bit) score accumulator exactly
when the maximum sequence length times the maximum absolute score magnitude is
strictly within the narrow accumulator's positive range limit, the wide
(32-bit) accumulator otherwise, and in particular wide when the product is
exactly at the range limit; any batch `create_batch` returns carries the
selected variant. -/
theorem C1_narrow_wide_selection (batch_size : BatchSize)
    (gap_score mismatch_score match_score : Int) :
    (scoreRangeProduct batch_size gap_score mismatch_score match_score < int16Limit ↔
      selectedScoreType batch_size gap_score mismatch_score match_score =
        ScoreType.narrow16) ∧
    (int16Limit ≤ scoreRangeProduct batch_size gap_score mismatch_score match_score ↔
      selectedScoreType batch_size gap_score mismatch_score match_score =
        ScoreType.wide32) ∧
    (scoreRangeProduct batch_size gap_score mismatch_score match_score = int16Limit →
      selectedScoreType batch_size gap_score mismatch_score match_score =
        ScoreType.wide32) ∧
    (∀ (device_id : Int) (stream max_mem output_mask : Nat) (banded : Bool) (b : Batch),
      create_batch device_id stream max_mem output_mask batch_size
          gap_score mismatch_score match_score banded = Except.ok b →
      b.score_type = selectedScoreType batch_size gap_score mismatch_score match_score) := by
  have hsel : ∀ (device_id : Int) (stream max_mem output_mask : Nat) (banded : Bool)
      (b : Batch),
      create_batch device_id stream max_mem output_mask batch_size
          gap_score mismatch_score match_score banded = Except.ok b →
      b.score_type = selectedScoreType batch_size gap_score mismatch_score match_score := by
    intro device_id stream max_mem output_mask banded b hok
    rw [create_batch_eq] at hok
    by_cases hm : max_mem < minimalProblemBytes batch_size
        (selectedScoreType batch_size gap_score mismatch_score match_score)
    · simp [hm] at hok
    · simp [hm] at hok
      rw [← hok]
  have hwide : selectedScoreType batch_size gap_score mismatch_score match_score =
      ScoreType.wide32 ↔
      int16Limit ≤ scoreRangeProduct batch_size gap_score mismatch_score match_score := by
    unfold selectedScoreType use32bitInt scoreRangeProduct
    by_cases h : int16Limit ≤
        (batch_size.max_sequence_length : Int) *
          maxAbsScore gap_score mismatch_score match_score
    · simp [h]
    · simp [h]
  have hnarrow : selectedScoreType batch_size gap_score mismatch_score match_score =
      ScoreType.narrow16 ↔
      scoreRangeProduct batch_size gap_score mismatch_score match_score < int16Limit := by
    unfold selectedScoreType use32bitInt scoreRangeProduct
    by_cases h : int16Limit ≤
        (batch_size.max_sequence_length : Int) *
          maxAbsScore gap_score mismatch_score match_score
    · simp only [h, decide_eq_true_eq, if_pos h]
      exact iff_of_false (by simp) (not_lt.mpr h)
    · simp only [decide_eq_true_eq, if_neg h]
      exact iff_of_true trivial (not_le.mp h)
  exact ⟨hnarrow.symm, hwide.symm, fun he => hwide.mpr he.ge, hsel⟩

/-- C1 witness: at maximum sequence length 32767 and maximum score magnitude
1 the product is exactly the range limit and wide mode is selected; a
successful `create_batch` call there returns the wide variant. -/
theorem C1_narrow_wide_selection_witness :
    selectedScoreType ⟨10, 32767⟩ 0 0 1 = ScoreType.wide32 ∧
    (⟨ScoreType.wide32, 0, 0, 4294705156, 0, ⟨10, 32767⟩, 0, 0, 1, false⟩ :
        Batch).score_type = selectedScoreType ⟨10, 32767⟩ 0 0 1 :=
  ⟨(C1_narrow_wide_selection ⟨10, 32767⟩ 0 0 1).2.2.1 (by decide),
   (C1_narrow_wide_selection ⟨10, 32767⟩ 0 0 1).2.2.2 0 0 4294705156 0 false _ rfl⟩

/-- C2: `create_batch` fails with a ConfigurationError exactly when
`max_memory` cannot hold one minimal-size problem at the selected precision
(the model enqueues no device work: the check happens at construction), and
for every sufficient `max_memory` it constructs and returns a batch. -/
theorem C2_memory_precondition (device_id : Int) (stream max_mem output_mask : Nat)
    (batch_size : BatchSize) (gap_score mismatch_score match_score : Int) (banded : Bool) :
    (max_mem < minimalProblemBytes batch_size
        (selectedScoreType batch_size gap_score mismatch_score match_score) →
      create_batch device_id stream max_mem output_mask batch_size
          gap_score mismatch_score match_score banded =
        Except.error CudapoaError.configuration_error) ∧
    (minimalProblemBytes batch_size
        (selectedScoreType batch_size gap_score mismatch_score match_score) ≤ max_mem →
      ∃ b : Batch, create_batch device_id stream max_mem output_mask batch_size
          gap_score mismatch_score match_score banded = Except.ok b) := by
  rw [create_batch_eq]
  constructor
  · intro h
    rw [if_pos h]
  · intro h
    rw [if_neg (Nat.not_lt.mpr h)]
    exact ⟨_, rfl⟩

/-- C2 witness: with size bounds (1, 1) and unit scores the narrow mode is
selected and the minimal problem needs 2 bytes; `max_memory = 1` fails with a
ConfigurationError and `max_memory = 2` constructs a batch. -/
theorem C2_memory_precondition_witness :
    create_batch 0 0 1 0 ⟨1, 1⟩ 1 1 1 false =
      Except.error CudapoaError.configuration_error ∧
    ∃ b : Batch, create_batch 0 0 2 0 ⟨1, 1⟩ 1 1 1 false = Except.ok b :=
  ⟨(C2_memory_precondition 0 0 1 0 ⟨1, 1⟩ 1 1 1 false).1 (by decide),
   (C2_memory_precondition 0 0 2 0 ⟨1, 1⟩ 1 1 1 false).2 (by decide)⟩

/-- C10 counterexample: `create_batch` does not return a batch for every
input — with `max_memory = 0` (too small for a minimal problem) it fails with
a ConfigurationError instead of returning a batch. -/
theorem C10_counterexample :
    ¬ ∃ b : Batch, create_batch 0 0 0 0 ⟨1, 1⟩ 1 1 1 false = Except.ok b := by
  rintro ⟨b, hb⟩
  rw [create_batch_eq, if_pos (by decide)] at hb
  exact Except.noConfusion hb

/-- C10 (amended): whenever `create_batch` returns a batch, that batch is
exactly one of the two concrete score-type variants, and the variant is the
one selected from the size bounds and the scores alone; two calls that agree
on the size bounds and the three scores but differ in device id, stream,
max_memory, output mask, or the banded flag select the same variant. -/
theorem C10_variant_depends_only_on_sizes_and_scores
    (batch_size : BatchSize) (gap_score mismatch_score match_score : Int) :
    (∀ (device_id : Int) (stream max_mem output_mask : Nat) (banded : Bool) (b : Batch),
      create_batch device_id stream max_mem output_mask batch_size
          gap_score mismatch_score match_score banded = Except.ok b →
      (b.score_type = ScoreType.narrow16 ∨ b.score_type = ScoreType.wide32) ∧
      b.score_type = selectedScoreType batch_size gap_score mismatch_score match_score) ∧
    (∀ (d1 d2 : Int) (st1 st2 mem1 mem2 mask1 mask2 : Nat) (banded1 banded2 : Bool)
        (b1 b2 : Batch),
      create_batch d1 st1 mem1 mask1 batch_size
          gap_score mismatch_score match_score banded1 = Except.ok b1 →
      create_batch d2 st2 mem2 mask2 batch_size
          gap_score mismatch_score match_score banded2 = Except.ok b2 →
      b1.score_type = b2.score_type) := by
  have hsel : ∀ (device_id : Int) (stream max_mem output_mask : Nat) (banded : Bool)
      (b : Batch),
      create_batch device_id stream max_mem output_mask batch_size
          gap_score mismatch_score match_score banded = Except.ok b →
      b.score_type = selectedScoreType batch_size gap_score mismatch_score match_score := by
    intro device_id stream max_mem output_mask banded b hok
    rw [create_batch_eq] at hok
    by_cases hm : max_mem < minimalProblemBytes batch_size
        (selectedScoreType batch_size gap_score mismatch_score match_score)
    · rw [if_pos hm] at hok
      exact Except.noConfusion hok
    · rw [if_neg hm] at hok
      cases hok
      rfl
  constructor
  · intro device_id stream max_mem output_mask banded b hok
    refine ⟨?_, hsel device_id stream max_mem output_mask banded b hok⟩
    cases b.score_type
    · exact Or.inl rfl
    · exact Or.inr rfl
  · intro d1 d2 st1 st2 mem1 mem2 mask1 mask2 banded1 banded2 b1 b2 h1 h2
    rw [hsel d1 st1 mem1 mask1 banded1 b1 h1, hsel d2 st2 mem2 mask2 banded2 b2 h2]

/-- C10 witness: two successful calls differing in device id, stream,
max_memory, output mask and banded flag return batches with the same
(narrow) score-type variant. -/
theorem C10_variant_witness :
    (⟨ScoreType.narrow16, 5, 7, 100, 3, ⟨1, 1⟩, 1, 1, 1, true⟩ : Batch).score_type =
      (⟨ScoreType.narrow16, 0, 0, 2, 0, ⟨1, 1⟩, 1, 1, 1, false⟩ : Batch).score_type :=
  (C10_variant_depends_only_on_sizes_and_scores ⟨1, 1⟩ 1 1 1).2
    5 0 7 0 100 2 3 0 true false _ _ rfl rfl

lemma add_problem_fail_eq (s : BatchState) (p : Problem)
    (h : (add_problem s p).1 ≠ AddStatus.success) : (add_problem s p).2 = s := by
  obtain ⟨cfg, probs, res, ph⟩ := s
  cases ph <;> simp only [add_problem] at h ⊢ <;> split_ifs at h ⊢ <;>
    first | rfl | exact absurd rfl h

lemma add_problem_config (s : BatchState) (p : Problem) :
    (add_problem s p).2.config = s.config := by
  obtain ⟨cfg, probs, res, ph⟩ := s
  cases ph <;> simp only [add_problem] <;> split_ifs <;> rfl

lemma stepBatch_config (s : BatchState) (op : BatchOp) :
    (stepBatch s op).config = s.config := by
  cases op with
  | add p => exact add_problem_config s p
  | execute =>
    obtain ⟨cfg, probs, res, ph⟩ := s
    cases ph <;> rfl
  | getResults => rfl
  | reset =>
    obtain ⟨cfg, probs, res, ph⟩ := s
    cases ph <;> rfl

lemma runBatch_config (s : BatchState) (ops : List BatchOp) :
    (runBatch s ops).config = s.config := by
  induction ops generalizing s with
  | nil => rfl
  | cons op ops ih => rw [runBatch, ih, stepBatch_config]

lemma stepBatch_memUse (s : BatchState) (op : BatchOp)
    (h : memUse s ≤ s.config.budget) :
    memUse (stepBatch s op) ≤ s.config.budget := by
  cases op with
  | add p =>
    obtain ⟨cfg, probs, res, ph⟩ := s
    simp only [memUse] at h ⊢
    cases ph <;> simp only [stepBatch, add_problem, memUse] <;>
        (try split_ifs with h1 h2 h3) <;>
        (try simp only [memUse, List.map_append, List.sum_append, List.map_cons,
          List.map_nil, List.sum_cons, List.sum_nil] at *) <;>
      omega
  | execute =>
    obtain ⟨cfg, probs, res, ph⟩ := s
    cases ph <;> simpa [stepBatch, executeBatch, memUse] using h
  | getResults => exact h
  | reset =>
    obtain ⟨cfg, probs, res, ph⟩ := s
    cases ph <;> simp [stepBatch, resetBatch, memUse] <;> exact h

lemma runBatch_memUse (s : BatchState) (ops : List BatchOp)
    (h : memUse s ≤ s.config.budget) :
    memUse (runBatch s ops) ≤ s.config.budget := by
  induction ops generalizing s with
  | nil => exact h
  | cons op ops ih =>
    rw [runBatch]
    have h2 : memUse (stepBatch s op) ≤ (stepBatch s op).config.budget := by
      rw [stepBatch_config]
      exact stepBatch_memUse s op h
    have h3 := ih (stepBatch s op) h2
    rwa [stepBatch_config] at h3

lemma create_batch_ok_score_type (device_id : Int) (stream max_mem output_mask : Nat)
    (batch_size : BatchSize) (gap_score mismatch_score match_score : Int)
    (banded : Bool) (b : Batch)
    (hok : create_batch device_id stream max_mem output_mask batch_size
        gap_score mismatch_score match_score banded = Except.ok b) :
    b.score_type = selectedScoreType batch_size gap_score mismatch_score match_score := by
  rw [create_batch_eq] at hok
  by_cases hm : max_mem < minimalProblemBytes batch_size
      (selectedScoreType batch_size gap_score mismatch_score match_score)
  · rw [if_pos hm] at hok
    exact Except.noConfusion hok
  · rw [if_neg hm] at hok
    cases hok
    rfl

/-- C5: a failing `add_problem` call (invalid state, malformed input, problem
too large, or batch full) leaves the batch state — accumulated problems and
configuration — unchanged, and repeating the rejected call yields the same
rejection on the same state. -/
theorem C5_rejection_leaves_state_unchanged (s : BatchState) (p : Problem)
    (st : AddStatus) (s' : BatchState)
    (h : add_problem s p = (st, s')) (hfail : st ≠ AddStatus.success) :
    s' = s ∧ add_problem s' p = (st, s') := by
  have h1 : (add_problem s p).1 = st := by rw [h]
  have h2 : (add_problem s p).2 = s' := by rw [h]
  have hs : s' = s := by
    rw [← h2]
    exact add_problem_fail_eq s p (by rw [h1]; exact hfail)
  refine ⟨hs, ?_⟩
  rw [hs, h, hs]

/-- C5 witness: a batch with zero memory budget rejects a well-formed problem
with `batch_full`, leaving the empty state unchanged; the repeated call
rejects identically. -/
theorem C5_rejection_witness :
    (⟨⟨ScoreType.narrow16, 0, ⟨2, 5⟩, 1, -1, -2, 3, false⟩, [], [],
        Phase.empty⟩ : BatchState) =
      (⟨⟨ScoreType.narrow16, 0, ⟨2, 5⟩, 1, -1, -2, 3, false⟩, [], [],
        Phase.empty⟩ : BatchState) ∧
    add_problem
      (⟨⟨ScoreType.narrow16, 0, ⟨2, 5⟩, 1, -1, -2, 3, false⟩, [], [],
        Phase.empty⟩ : BatchState) ⟨[[1, 2]]⟩ =
      (AddStatus.batch_full,
        ⟨⟨ScoreType.narrow16, 0, ⟨2, 5⟩, 1, -1, -2, 3, false⟩, [], [],
          Phase.empty⟩) :=
  C5_rejection_leaves_state_unchanged
    ⟨⟨ScoreType.narrow16, 0, ⟨2, 5⟩, 1, -1, -2, 3, false⟩, [], [], Phase.empty⟩
    ⟨[[1, 2]]⟩ AddStatus.batch_full
    ⟨⟨ScoreType.narrow16, 0, ⟨2, 5⟩, 1, -1, -2, 3, false⟩, [], [], Phase.empty⟩
    (by decide) (by decide)

/-- C6: starting from a freshly constructed batch, no sequence of
`add_problem`, `execute`, `get_results` and `reset` operations ever drives the
device-memory use of the accumulated problems above the `max_memory` budget
the batch was constructed with. -/
theorem C6_memory_budget_never_exceeded (b : Batch) (ops : List BatchOp) :
    memUse (runBatch (initBatchState b) ops) ≤ b.max_mem := by
  have h0 : memUse (initBatchState b) ≤ (initBatchState b).config.budget := by
    simp [memUse, initBatchState]
  simpa [initBatchState, Batch.cfg] using runBatch_memUse (initBatchState b) ops h0

/-- C7: the score-type mode of a batch returned by `create_batch` equals the
pure selection function of the size bounds and scoring parameters alone, and
no sequence of batch operations ever changes the configured score type. -/
theorem C7_score_type_immutable (device_id : Int) (stream max_mem output_mask : Nat)
    (batch_size : BatchSize) (gap_score mismatch_score match_score : Int)
    (banded : Bool) (b : Batch)
    (hok : create_batch device_id stream max_mem output_mask batch_size
        gap_score mismatch_score match_score banded = Except.ok b) :
    b.score_type = selectedScoreType batch_size gap_score mismatch_score match_score ∧
    ∀ ops : List BatchOp,
      (runBatch (initBatchState b) ops).config.score_type = b.score_type := by
  refine ⟨create_batch_ok_score_type device_id stream max_mem output_mask batch_size
    gap_score mismatch_score match_score banded b hok, ?_⟩
  intro ops
  rw [runBatch_config]
  rfl

/-- C7 witness: a concrete successful construction carries the selected
narrow score type, and it is still configured after an
add/execute/get-results/reset cycle. -/
theorem C7_score_type_immutable_witness :
    (⟨ScoreType.narrow16, 0, 0, 2, 0, ⟨1, 1⟩, 1, 1, 1, false⟩ : Batch).score_type =
      selectedScoreType ⟨1, 1⟩ 1 1 1 ∧
    (runBatch
        (initBatchState ⟨ScoreType.narrow16, 0, 0, 2, 0, ⟨1, 1⟩, 1, 1, 1, false⟩)
        [BatchOp.add ⟨[[1]]⟩, BatchOp.execute, BatchOp.getResults,
          BatchOp.reset]).config.score_type =
      (⟨ScoreType.narrow16, 0, 0, 2, 0, ⟨1, 1⟩, 1, 1, 1, false⟩ : Batch).score_type :=
  ⟨(C7_score_type_immutable 0 0 2 0 ⟨1, 1⟩ 1 1 1 false _ rfl).1,
   (C7_score_type_immutable 0 0 2 0 ⟨1, 1⟩ 1 1 1 false _ rfl).2
     [BatchOp.add ⟨[[1]]⟩, BatchOp.execute, BatchOp.getResults, BatchOp.reset]⟩

/-- C9: executing a batch that is accumulating problems stores one result per
accumulated problem — the problem list mapped in order — and `get_results`
returns exactly that list; `add_problem` appends each accepted problem at the
end, so the result order is the insertion order. -/
theorem C9_results_in_insertion_order (s : BatchState)
    (hacc : s.phase = Phase.accumulating) :
    get_results (executeBatch s).2 =
      some (s.problems.map (solveProblem s.config.output_mask)) ∧
    ∀ p : Problem, (add_problem s p).1 = AddStatus.success →
      (add_problem s p).2.problems = s.problems ++ [p] := by
  obtain ⟨cfg, probs, res, ph⟩ := s
  cases hacc
  constructor
  · rfl
  · intro p hsucc
    simp only [add_problem] at hsucc ⊢
    split_ifs at hsucc ⊢
    rfl

/-- C9 witness: a concrete accumulating batch with two problems yields, after
execution, results that are exactly the two problems solved in insertion
order, and a successful add appends at the end. -/
theorem C9_results_in_insertion_order_witness :
    get_results (executeBatch
        (⟨⟨ScoreType.narrow16, 100, ⟨2, 5⟩, 1, -1, -2, 3, false⟩,
          [⟨[[1, 2]]⟩, ⟨[[3]]⟩], [], Phase.accumulating⟩ : BatchState)).2 =
      some ([⟨[[1, 2]]⟩, ⟨[[3]]⟩].map (solveProblem 1)) ∧
    ∀ p : Problem,
      (add_problem
          (⟨⟨ScoreType.narrow16, 100, ⟨2, 5⟩, 1, -1, -2, 3, false⟩,
            [⟨[[1, 2]]⟩, ⟨[[3]]⟩], [], Phase.accumulating⟩ : BatchState) p).1 =
        AddStatus.success →
      (add_problem
          (⟨⟨ScoreType.narrow16, 100, ⟨2, 5⟩, 1, -1, -2, 3, false⟩,
            [⟨[[1, 2]]⟩, ⟨[[3]]⟩], [], Phase.accumulating⟩ : BatchState) p).2.problems =
        [⟨[[1, 2]]⟩, ⟨[[3]]⟩] ++ [p] :=
  C9_results_in_insertion_order
    ⟨⟨ScoreType.narrow16, 100, ⟨2, 5⟩, 1, -1, -2, 3, false⟩,
      [⟨[[1, 2]]⟩, ⟨[[3]]⟩], [], Phase.accumulating⟩ rfl

lemma generate_eq_product (same : Bool) (lq lt : List SeedOccurrence) :
    lq.flatMap (fun q => (lt.filter (anchorablePair same q)).map (mkAnchor q)) =
      ((lq.product lt).filter (fun qt => anchorablePair same qt.1 qt.2)).map
        (fun qt => mkAnchor qt.1 qt.2) := by
  induction lq with
  | nil => rfl
  | cons q qs ih =>
    have hp : (q :: qs).product lt = lt.map (Prod.mk q) ++ qs.product lt := by
      simp only [List.product, List.flatMap_cons]
    rw [List.flatMap_cons, hp, List.filter_append, List.map_append, ih]
    congr 1
    rw [List.filter_map, List.map_map]
    rfl

/-- C3 counterexample: for an index paired with itself, a matching
fingerprint pair need not appear as an anchor — the identity self-pair of
the single seed (read 0, position 0, fingerprint 5) matches itself but the
generated anchor list is empty, so not "every matching fingerprint pair
appears exactly once". -/
theorem C3_counterexample :
    (⟨0, 0, 5⟩ : SeedOccurrence) ∈
        (⟨0, [⟨0, 0, 5⟩]⟩ : IndexTwoIndices).seeds ∧
    (⟨0, 0, 5⟩ : SeedOccurrence).fp = (⟨0, 0, 5⟩ : SeedOccurrence).fp ∧
    mkAnchor ⟨0, 0, 5⟩ ⟨0, 0, 5⟩ ∉
      generateAnchors ⟨0, [⟨0, 0, 5⟩]⟩ ⟨0, [⟨0, 0, 5⟩]⟩ := by
  refine ⟨by decide, rfl, by decide⟩

/-- C3 (amended): the anchors of `generate(A, B)` are exactly the cross
product of A's and B's seeds restricted to pairs with equal fingerprints —
excluding identity self-pairs (same read, same position) when A and B are the
same index — each such pair appearing exactly once, in query-major order. -/
theorem C3_anchors_are_matching_pairs (A B : IndexTwoIndices) :
    generateAnchors A B =
      ((A.seeds.product B.seeds).filter (fun qt =>
          anchorablePair (A.index_id == B.index_id) qt.1 qt.2)).map
        (fun qt => mkAnchor qt.1 qt.2) :=
  generate_eq_product (A.index_id == B.index_id) A.seeds B.seeds

/-- C4: `generate(A, A)` produces no identity self-match — no anchor pairs a
read position with itself. -/
theorem C4_no_identity_self_match (A : IndexTwoIndices) (a : Anchor)
    (ha : a ∈ generateAnchors A A) :
    ¬ (a.query_read_id = a.target_read_id ∧ a.query_pos = a.target_pos) := by
  rintro ⟨hr, hp⟩
  unfold generateAnchors at ha
  rw [List.mem_flatMap] at ha
  obtain ⟨q, hq, ha2⟩ := ha
  rw [List.mem_map] at ha2
  obtain ⟨t, ht, rfl⟩ := ha2
  rw [List.mem_filter] at ht
  obtain ⟨-, hcond⟩ := ht
  simp only [mkAnchor] at hr hp
  simp [anchorablePair, hr, hp] at hcond

/-- C4 witness: an index whose two seeds share a fingerprint generates the
anchor pairing position 0 with position 1, and that anchor is not an
identity self-match. -/
theorem C4_no_identity_self_match_witness :
    ¬ ((⟨0, 0, 0, 1⟩ : Anchor).query_read_id =
          (⟨0, 0, 0, 1⟩ : Anchor).target_read_id ∧
        (⟨0, 0, 0, 1⟩ : Anchor).query_pos = (⟨0, 0, 0, 1⟩ : Anchor).target_pos) :=
  C4_no_identity_self_match ⟨0, [⟨0, 0, 7⟩, ⟨0, 1, 7⟩]⟩ ⟨0, 0, 0, 1⟩ (by decide)

lemma chainGraph_numNodes (s : ReadSeq) : (chainGraph s).numNodes = s.length := rfl

lemma chainGraph_nodeWeight (s : ReadSeq) (i : Nat) :
    (chainGraph s).nodeWeight i = 1 := rfl

lemma chainGraph_base (s : ReadSeq) (i : Nat) :
    (chainGraph s).base i = s.getD i 0 := rfl

lemma chainGraph_adj (s : ReadSeq) (i : Nat) :
    (chainGraph s).adj i = if i + 1 < s.length then [(i + 1, 1)] else [] := rfl

lemma chainGraph_aligns (s : ReadSeq) :
    (chainGraph s).aligns = [List.range s.length] := rfl

lemma pickMax_mem : ∀ {l : List (Nat × List Nat)} {x : Nat × List Nat},
    pickMax l = some x → x ∈ l := by
  intro l
  induction l with
  | nil => intro x h; exact Option.noConfusion h
  | cons a l ih =>
    intro x h
    simp only [pickMax] at h
    cases hl : pickMax l with
    | none =>
      rw [hl] at h
      cases h
      exact List.mem_cons_self a l
    | some y =>
      rw [hl] at h
      cases h
      by_cases hy : y.1 > a.1
      · rw [if_pos hy]
        exact List.mem_cons_of_mem a (ih hl)
      · rw [if_neg hy]
        exact List.mem_cons_self a l

lemma pickMax_head (x : Nat × List Nat) (xs : List (Nat × List Nat))
    (h : ∀ y ∈ xs, y.1 ≤ x.1) : pickMax (x :: xs) = some x := by
  cases hl : pickMax xs with
  | none => simp only [pickMax, hl]
  | some y =>
    have hy := h y (pickMax_mem hl)
    simp only [pickMax, hl]
    rw [if_neg (not_lt.mpr hy)]

lemma bestFrom_chainGraph (s : ReadSeq) :
    ∀ fuel i, i < s.length → s.length - i ≤ fuel + 1 →
      bestFrom (chainGraph s) fuel i =
        (2 * (s.length - i) - 1, List.range' i (s.length - i)) := by
  intro fuel
  induction fuel with
  | zero =>
    intro i hi hf
    have h1 : s.length - i = 1 := by omega
    rw [h1]
    simp [bestFrom, chainGraph_nodeWeight, List.range']
  | succ fuel ih =>
    intro i hi hf
    by_cases hnext : i + 1 < s.length
    · have ihn := ih (i + 1) hnext (by omega)
      simp only [bestFrom, chainGraph_adj, chainGraph_nodeWeight, if_pos hnext,
        List.map_cons, List.map_nil, ihn, pickMax]
      have hr : List.range' i (s.length - i) =
          i :: List.range' (i + 1) (s.length - (i + 1)) := by
        have hsplit : s.length - i = (s.length - (i + 1)) + 1 := by omega
        rw [hsplit, List.range'_succ]
      rw [hr, Prod.mk.injEq]
      exact ⟨by omega, rfl⟩
    · have h1 : s.length - i = 1 := by omega
      simp only [bestFrom, chainGraph_adj, chainGraph_nodeWeight, if_neg hnext,
        List.map_nil, pickMax, h1]
      simp [List.range']

lemma consensusPath_chainGraph (s : ReadSeq) (hs : s ≠ []) :
    consensusPath (chainGraph s) = List.range s.length := by
  have hn : 0 < s.length := List.length_pos.mpr hs
  have hrange : List.range s.length = 0 :: List.range' 1 (s.length - 1) := by
    rw [List.range_eq_range']
    cases hL : s.length with
    | zero => omega
    | succ n => simp [List.range'_succ]
  have hhead : bestFrom (chainGraph s) s.length 0 =
      (2 * s.length - 1, List.range' 0 s.length) := by
    have h := bestFrom_chainGraph s s.length 0 hn (by omega)
    simpa using h
  have htail : ∀ y ∈ (List.range' 1 (s.length - 1)).map
      (fun i => bestFrom (chainGraph s) s.length i),
      y.1 ≤ (2 * s.length - 1, List.range' 0 s.length).1 := by
    intro y hy
    rw [List.mem_map] at hy
    obtain ⟨i, hi, rfl⟩ := hy
    rw [List.mem_range'_1] at hi
    have hlt : i < s.length := by omega
    rw [bestFrom_chainGraph s s.length i hlt (by omega)]
    dsimp
    omega
  show (match pickMax ((List.range (chainGraph s).numNodes).map
      (fun i => bestFrom (chainGraph s) (chainGraph s).numNodes i)) with
    | none => []
    | some (_, p) => p) = List.range s.length
  rw [chainGraph_numNodes, hrange, List.map_cons, hhead,
    pickMax_head _ _ htail]
  show List.range' 0 s.length = 0 :: List.range' 1 (s.length - 1)
  rw [← List.range_eq_range', hrange]

lemma map_getD_range (s : ReadSeq) :
    (List.range s.length).map (fun i => s.getD i 0) = s := by
  induction s with
  | nil => rfl
  | cons a t ih =>
    rw [List.length_cons, List.range_succ_eq_map, List.map_cons, List.map_map]
    congr 1

lemma buildGraph_single (s : ReadSeq) : buildGraph [s] = chainGraph s := rfl

lemma count_none_map_some (s : ReadSeq) : gapCount (s.map some) = 0 := by
  rw [gapCount, List.count_eq_zero]
  simp

lemma solveProblem_single (output_mask : Nat) (s : ReadSeq) (hs : s ≠ []) :
    solveProblem output_mask ⟨[s]⟩ =
      ⟨if requestsConsensus output_mask then some s else none,
       if requestsMsa output_mask then some [s.map some] else none⟩ := by
  simp only [solveProblem]
  rw [buildGraph_single, consensusPath_chainGraph s hs]
  have hbase : (List.range s.length).map (chainGraph s).base = s := by
    rw [show (chainGraph s).base = fun i => s.getD i 0 from rfl]
    exact map_getD_range s
  have hrow : msaRow (chainGraph s) (List.range s.length) (List.range s.length) =
      s.map some := by
    unfold msaRow
    have hcong : ∀ j ∈ List.range s.length,
        (if j ∈ List.range s.length then some ((chainGraph s).base j) else none) =
          some (s.getD j 0) := by
      intro j hj
      rw [if_pos hj, chainGraph_base]
    rw [List.map_congr_left hcong, show (fun j => some (s.getD j 0)) =
      some ∘ (fun j => s.getD j 0) from rfl, ← List.map_map, map_getD_range]
  rw [hbase, chainGraph_aligns, List.map_cons, List.map_nil, hrow]

/-- C8: adding a single non-empty well-formed sequence as the only problem of
a fresh batch and executing yields a consensus identical to that sequence,
and, when MSA output is requested, an MSA with exactly one row — that
sequence — containing no gaps. -/
theorem C8_single_sequence_round_trip (b : Batch) (s : ReadSeq)
    (hmal : problemMalformed ⟨[s]⟩ = false)
    (hlarge : problemTooLarge b.batch_size ⟨[s]⟩ = false)
    (hfits : problemBytes b.score_type ⟨[s]⟩ ≤ b.max_mem)
    (hcons : requestsConsensus b.output_mask = true) :
    ∃ r : ProblemResult,
      get_results (executeBatch (add_problem (initBatchState b) ⟨[s]⟩).2).2 =
        some [r] ∧
      r.consensus = some s ∧
      (requestsMsa b.output_mask = true →
        r.msa = some [s.map some] ∧ gapCount (s.map some) = 0) := by
  have hs : s ≠ [] := by
    intro h
    subst h
    simp [problemMalformed] at hmal
  have hadd : add_problem (initBatchState b) ⟨[s]⟩ =
      (AddStatus.success, ⟨b.cfg, [⟨[s]⟩], [], Phase.accumulating⟩) := by
    simp only [add_problem, initBatchState]
    rw [if_neg (by rw [hmal]; exact Bool.false_ne_true),
      if_neg (by rw [show b.cfg.batch_size = b.batch_size from rfl, hlarge]
                 exact Bool.false_ne_true),
      if_neg ?_]
    · rfl
    · show ¬(b.cfg.budget <
        memUse ⟨b.cfg, [], [], Phase.empty⟩ + problemBytes b.cfg.score_type ⟨[s]⟩)
      have h0 : memUse ⟨b.cfg, [], [], Phase.empty⟩ = 0 := rfl
      rw [h0, Nat.zero_add]
      exact Nat.not_lt.mpr hfits
  refine ⟨solveProblem b.output_mask ⟨[s]⟩, ?_, ?_, ?_⟩
  · rw [hadd]
    rfl
  · rw [solveProblem_single b.output_mask s hs]
    simp [hcons]
  · intro hmsa
    rw [solveProblem_single b.output_mask s hs]
    simp only [hmsa, if_true]
    exact ⟨trivial, count_none_map_some s⟩

/-- C8 witness: sequence [1, 2, 3] as the only problem of a fresh batch
requesting consensus and MSA comes back as its own consensus with a single
gap-free MSA row. -/
theorem C8_single_sequence_round_trip_witness :
    ∃ r : ProblemResult,
      get_results (executeBatch (add_problem
          (initBatchState
            ⟨ScoreType.narrow16, 0, 0, 100, 3, ⟨2, 5⟩, -8, -6, 8, false⟩)
          ⟨[[1, 2, 3]]⟩).2).2 = some [r] ∧
      r.consensus = some [1, 2, 3] ∧
      (requestsMsa 3 = true →
        r.msa = some [[1, 2, 3].map some] ∧ gapCount ([1, 2, 3].map some) = 0) :=
  C8_single_sequence_round_trip
    ⟨ScoreType.narrow16, 0, 0, 100, 3, ⟨2, 5⟩, -8, -6, 8, false⟩
    [1, 2, 3] (by decide) (by decide) (by decide) (by decide)
